import Mathlib

/-!
Verification of the profiling instrumentation middleware
(`packages/profiler/src/instrumentation.rs`).

The middleware rewrites a wasm function's instruction stream: it splits the
stream into basic blocks at control-flow boundary instructions, registers each
closed block's opcode-only symbol sequence in a shared block store, and injects
calls to two imported measurement hooks (`profiling.start_measurement` and
`profiling.take_measurement`) around every block.

The embedding below translates the Rust source.  Operators are modelled as an
inductive type covering the nine boundary variants matched by the source plus
representative non-boundary variants and a generic `other` family standing for
every remaining opcode.  Machine integers are `Nat`/`Int` with explicit
wrapping where the source casts (`as i32`, `as i64`).  The source's mutable
emission buffer (`MiddlewareReaderState`) becomes an explicit output list in
which each emitted instruction carries a ghost tag recording whether it was
injected by the middleware or copied from the input.
-/

namespace CosmwasmProfiler

/-- Wasm operators, mirroring `wasmer::wasmparser::Operator` restricted to the
variants the instrumentation distinguishes: the nine boundary variants matched
explicitly in `FunctionProfiling::feed`, the constant/call operators the
middleware itself injects, a few further representative body operators, and a
generic `other` family standing for every remaining opcode the source's
wildcard arm covers.  Immediate operands are kept where the source reads
them. -/
inductive Operator where
  | Loop
  | End
  | Else
  | Br (relative_depth : Nat)
  | BrTable (targets : List Nat)
  | BrIf (relative_depth : Nat)
  | Call (function_index : Nat)
  | CallIndirect (index : Nat) (table_index : Nat)
  | Return
  | Block
  | If
  | Unreachable
  | Nop
  | LocalGet (local_index : Nat)
  | LocalSet (local_index : Nat)
  | I32Const (value : Int)
  | I64Const (value : Int)
  | I32Add
  | I32Sub
  | I32Mul
  | other (opcode : Nat)
  deriving DecidableEq

/-- Modelled from the spec: `OperatorSymbol` is defined in
`packages/profiler/src/operators.rs`, which is not part of the sources given;
per the spec it is "a reduced, opcode-only representation of one instruction,
discarding operand values", one variant per opcode family. -/
inductive OperatorSymbol where
  | Loop
  | End
  | Else
  | Br
  | BrTable
  | BrIf
  | Call
  | CallIndirect
  | Return
  | Block
  | If
  | Unreachable
  | Nop
  | LocalGet
  | LocalSet
  | I32Const
  | I64Const
  | I32Add
  | I32Sub
  | I32Mul
  | other (opcode : Nat)
  deriving DecidableEq

/-- Modelled from the spec: the total map from an instruction to its
opcode-only symbol (`(&operator).into()` in the source; the `From`
implementation lives in the missing `operators.rs`).  "Two instructions with
the same opcode but different operands map to the same symbol." -/
def opSymbol : Operator → OperatorSymbol
  | .Loop => .Loop
  | .End => .End
  | .Else => .Else
  | .Br _ => .Br
  | .BrTable _ => .BrTable
  | .BrIf _ => .BrIf
  | .Call _ => .Call
  | .CallIndirect _ _ => .CallIndirect
  | .Return => .Return
  | .Block => .Block
  | .If => .If
  | .Unreachable => .Unreachable
  | .Nop => .Nop
  | .LocalGet _ => .LocalGet
  | .LocalSet _ => .LocalSet
  | .I32Const _ => .I32Const
  | .I64Const _ => .I64Const
  | .I32Add => .I32Add
  | .I32Sub => .I32Sub
  | .I32Mul => .I32Mul
  | .other n => .other n

/-- Numeric code of a symbol, used by the modelled content hash. -/
def symCode : OperatorSymbol → Nat
  | .Loop => 0
  | .End => 1
  | .Else => 2
  | .Br => 3
  | .BrTable => 4
  | .BrIf => 5
  | .Call => 6
  | .CallIndirect => 7
  | .Return => 8
  | .Block => 9
  | .If => 10
  | .Unreachable => 11
  | .Nop => 12
  | .LocalGet => 13
  | .LocalSet => 14
  | .I32Const => 15
  | .I64Const => 16
  | .I32Add => 17
  | .I32Sub => 18
  | .I32Mul => 19
  | .other n => 20 + n

/-- Modelled from the spec: the content hash of a block body, computed in the
missing `code_blocks.rs`.  The spec requires only "a fixed-width content hash
computed deterministically from the sequence (order-sensitive)" in a 64-bit
hash space; an FNV-style fold realises that. -/
def blockHash (syms : List OperatorSymbol) : Nat :=
  syms.foldl (fun h s => (h * 1099511628211 + symCode s) % 2 ^ 64) 14695981039346656037

/-- Modelled from the spec: the `BlockStore` of the missing `code_blocks.rs`,
"a mapping from content hash → Code Block", here an association list. -/
structure BlockStore where
  blocks : List (Nat × List OperatorSymbol)
  deriving DecidableEq

/-- Modelled from the spec: a fresh, empty store (`BlockStore::new()`). -/
def BlockStore.new : BlockStore := ⟨[]⟩

/-- Modelled from the spec: `register(sequence) -> hash` "computes the
deterministic content hash of `sequence`; if absent, inserts
`(hash, sequence)`; returns `hash` either way" (first-writer-wins on
collision, no collision detection). -/
def BlockStore.register_block (store : BlockStore) (ops : List OperatorSymbol) :
    BlockStore × Nat :=
  let h := blockHash ops
  match store.blocks.lookup h with
  | some _ => (store, h)
  | none => (⟨(h, ops) :: store.blocks⟩, h)

/-- The pair of resolved measurement-import indices
(`struct ProfilingIndexes`).  `FunctionIndex` values are `u32`, modelled as
`Nat`. -/
structure ProfilingIndexes where
  start_measurement : Nat
  take_measurement : Nat
  deriving DecidableEq

/-- Per-function instrumentation state (`struct FunctionProfiling`).  The
source holds the store behind `Arc<Mutex<_>>`; the embedding threads it
through the state explicitly. -/
structure FunctionProfiling where
  block_store : BlockStore
  accumulated_ops : List OperatorSymbol
  indexes : ProfilingIndexes
  block_count : Nat
  fn_index : Nat
  deriving DecidableEq

/-- `FunctionProfiling::new`: empty accumulator, block counter 0. -/
def FunctionProfiling.new (block_store : BlockStore) (indexes : ProfilingIndexes)
    (fn_index : Nat) : FunctionProfiling :=
  { block_store := block_store
    accumulated_ops := []
    indexes := indexes
    block_count := 0
    fn_index := fn_index }

/-- Wrapping conversion `u32 as i32` used when the source builds `I32Const`
arguments from a `u32` function index or block counter. -/
def toI32 (n : Nat) : Int :=
  if n % 2 ^ 32 < 2 ^ 31 then ((n % 2 ^ 32 : Nat) : Int)
  else ((n % 2 ^ 32 : Nat) : Int) - 2 ^ 32

/-- Wrapping conversion `u64 as i64` used when the source builds the
`I64Const` hash argument. -/
def toI64 (n : Nat) : Int :=
  if n % 2 ^ 64 < 2 ^ 63 then ((n % 2 ^ 64 : Nat) : Int)
  else ((n % 2 ^ 64 : Nat) : Int) - 2 ^ 64

/-- An instruction pushed into the output stream, with a ghost tag recording
whether `feed` injected it (`state.extend(...)` of a hook fragment) or copied
it from the input (`state.push_operator(operator)`). -/
inductive Emitted where
  | injected (op : Operator)
  | original (op : Operator)
  deriving DecidableEq

/-- The boundary classification: exactly the nine operator variants matched by
the first arm of the `match operator` in `FunctionProfiling::feed`; the
wildcard arm makes every other operator a body instruction. -/
def isBoundary : Operator → Bool
  | .Loop => true
  | .End => true
  | .Else => true
  | .Br _ => true
  | .BrTable _ => true
  | .BrIf _ => true
  | .Call _ => true
  | .CallIndirect _ _ => true
  | .Return => true
  | _ => false

/-- Errors a middleware step may report (`wasmer::MiddlewareError`); panics of
the module-level operations are modelled the same way. -/
abbrev MiddlewareError := String

/-- The start-measurement hook fragment injected at a block start:
`I32Const fn_index; I32Const block_count; Call start_measurement`. -/
def startHook (fn_index block_count start_idx : Nat) : List Emitted :=
  [.injected (.I32Const (toI32 fn_index)),
   .injected (.I32Const (toI32 block_count)),
   .injected (.Call start_idx)]

/-- The take-measurement hook fragment injected at a block end:
`I32Const fn_index; I32Const block_count; I64Const block_id; Call
take_measurement`. -/
def endHook (fn_index block_count block_id take_idx : Nat) : List Emitted :=
  [.injected (.I32Const (toI32 fn_index)),
   .injected (.I32Const (toI32 block_count)),
   .injected (.I64Const (toI64 block_id)),
   .injected (.Call take_idx)]

/-- Result of one `feed` call: the updated state, the instructions pushed into
the reader state, and the returned `Result<(), MiddlewareError>`. -/
structure FeedOut where
  state : FunctionProfiling
  emitted : List Emitted
  result : Except MiddlewareError Unit

/-- `FunctionProfiling::feed`, translated arm by arm.  Boundary operators
close the pending block when the accumulator is non-empty (register the block,
inject the end hook, clear the accumulator); body operators inject the start
hook when the accumulator is empty and are appended to the accumulator; the
operator itself is always pushed afterwards, and the function always returns
`Ok(())`. -/
def FunctionProfiling.feed (st : FunctionProfiling) (operator : Operator) : FeedOut :=
  if isBoundary operator then
    if st.accumulated_ops.isEmpty then
      { state := st, emitted := [.original operator], result := .ok () }
    else
      let r := st.block_store.register_block st.accumulated_ops
      { state := { st with block_store := r.1, accumulated_ops := [] }
        emitted := endHook st.fn_index st.block_count r.2 st.indexes.take_measurement
          ++ [.original operator]
        result := .ok () }
  else
    { state := { st with accumulated_ops := st.accumulated_ops ++ [opSymbol operator] }
      emitted := (if st.accumulated_ops.isEmpty then
          startHook st.fn_index st.block_count st.indexes.start_measurement
        else []) ++ [.original operator]
      result := .ok () }

/-- Feeding a whole instruction stream operator by operator, concatenating the
emissions and stopping at the first error (none ever occurs). -/
def runFeed (st : FunctionProfiling) : List Operator → FeedOut
  | [] => { state := st, emitted := [], result := .ok () }
  | op :: rest =>
    let r := st.feed op
    match r.result with
    | .error e => { state := r.state, emitted := r.emitted, result := .error e }
    | .ok _ =>
      let r2 := runFeed r.state rest
      { state := r2.state, emitted := r.emitted ++ r2.emitted, result := r2.result }

/-! ## The module-level middleware (`Profiling`) -/

/-- `wasmer_types::ImportIndex`: what an import entry resolves to. -/
inductive ImportIndex where
  | Function (i : Nat)
  | Table (i : Nat)
  | Memory (i : Nat)
  | Global (i : Nat)
  deriving DecidableEq

/-- The part of `wasmer_vm::ModuleInfo` the middleware reads: the import map,
keyed by `(module, field, import_idx)` in iteration order. -/
structure ModuleInfo where imports : List ((String × String × Nat) × ImportIndex)
  deriving DecidableEq

/-- The `find_map` scan in `Profiling::transform_module_info`: the first entry
of the import map whose `(module, field)` key equals
`("profiling", field_name)` and whose index is a function index. -/
def findMeasurementImport (field_name : String) (module_info : ModuleInfo) : Option Nat :=
  module_info.imports.findSome? fun entry =>
    if entry.1.1 = "profiling" ∧ entry.1.2.1 = field_name then
      match entry.2 with
      | .Function i => some i
      | _ => none
    else none

/-- `Profiling::transform_module_info`.  The `indexes` argument is the current
content of the `Mutex<Option<ProfilingIndexes>>`; panics (the explicit reuse
panic and the two `Option::unwrap` calls on the import scan) are modelled as
errors, and success returns the new content of the mutex. -/
def transform_module_info (indexes : Option ProfilingIndexes) (module_info : ModuleInfo) :
    Except MiddlewareError (Option ProfilingIndexes) :=
  if indexes.isSome then
    .error "Profiling::transform_module_info: Attempting to use a Profiling middleware from multiple modules."
  else
    match findMeasurementImport "start_measurement" module_info with
    | none => .error "called Option::unwrap() on a None value"
    | some fn1 =>
      match findMeasurementImport "take_measurement" module_info with
      | none => .error "called Option::unwrap() on a None value"
      | some fn2 =>
        .ok (some { start_measurement := fn1, take_measurement := fn2 })

/-- `Profiling::generate_function_middleware`: clones the shared store and
unwraps the resolved indexes (`self.indexes.lock().unwrap().clone().unwrap()`),
so it panics while the indexes are still `None`, and otherwise builds the
per-function state with `FunctionProfiling::new`. -/
def generate_function_middleware (block_store : BlockStore)
    (indexes : Option ProfilingIndexes) (local_function_index : Nat) :
    Except MiddlewareError FunctionProfiling :=
  match indexes with
  | none => .error "called Option::unwrap() on a None value"
  | some idx => .ok (FunctionProfiling.new block_store idx local_function_index)

/-! ## Block segmentation of the input stream

To reason about whole runs of `feed` we segment the input stream the way the
algorithm does: a maximal run of body instructions closed by a boundary
instruction forms a closed block, a boundary instruction meeting an empty
accumulator stands bare, and a trailing run of body instructions dangles. -/

/-- One segment of a function's instruction stream. -/
inductive Seg where
  | closed (body : List Operator) (boundary : Operator)
  | bare (boundary : Operator)
  | dangling (body : List Operator)
  deriving DecidableEq

/-- Negation of the boundary classification, used to split runs of body
instructions off the stream. -/
def nonBoundary (op : Operator) : Bool := !isBoundary op

/-- Splits an instruction stream into its segments. -/
def segs (ops : List Operator) : List Seg :=
  match h : ops.dropWhile nonBoundary with
  | [] =>
    if (ops.takeWhile nonBoundary).isEmpty then []
    else [.dangling (ops.takeWhile nonBoundary)]
  | b :: rest =>
    (if (ops.takeWhile nonBoundary).isEmpty then Seg.bare b
     else Seg.closed (ops.takeWhile nonBoundary) b) :: segs rest
termination_by ops.length
decreasing_by
  have hle : (ops.dropWhile nonBoundary).length ≤ ops.length :=
    List.Sublist.length_le (List.dropWhile_sublist nonBoundary)
  rw [h] at hle
  simp at hle
  omega

/-- The instructions a segment covers. -/
def segOps : Seg → List Operator
  | .closed body b => body ++ [b]
  | .bare b => [b]
  | .dangling body => body

/-- The exact instruction sequence the rewrite emits for one segment: a closed
block is wrapped in one start hook before its first instruction and one end
hook (carrying the block's content hash) before the closing boundary
instruction, a bare boundary instruction passes through untouched, and a
dangling block gets a start hook but no end hook. -/
def renderSeg (fn_index block_count start_idx take_idx : Nat) : Seg → List Emitted
  | .closed body b =>
    startHook fn_index block_count start_idx ++ body.map Emitted.original
      ++ endHook fn_index block_count (blockHash (body.map opSymbol)) take_idx
      ++ [Emitted.original b]
  | .bare b => [Emitted.original b]
  | .dangling body =>
    startHook fn_index block_count start_idx ++ body.map Emitted.original

/-- The symbol sequences of the closed blocks, in order; bare boundaries and a
dangling block contribute nothing. -/
def closedSyms : List Seg → List (List OperatorSymbol)
  | [] => []
  | .closed body _ :: rest => body.map opSymbol :: closedSyms rest
  | .bare _ :: rest => closedSyms rest
  | .dangling _ :: rest => closedSyms rest

/-- The symbol sequence left in the accumulator by a dangling block (empty
when every block is closed). -/
def danglingSyms : List Seg → List OperatorSymbol
  | [] => []
  | .closed _ _ :: rest => danglingSyms rest
  | .bare _ :: rest => danglingSyms rest
  | .dangling body :: _ => body.map opSymbol

/-- Registering a list of blocks into the store in order. -/
def foldRegister : BlockStore → List (List OperatorSymbol) → BlockStore
  | store, [] => store
  | store, syms :: rest => foldRegister (store.register_block syms).1 rest

/-- The underlying instruction of an emission when it was copied from the
input, `none` when the middleware injected it. -/
def originalOf : Emitted → Option Operator
  | .injected _ => none
  | .original op => some op

/-- Erasing the injected hook-call instructions from an output stream, keeping
the instructions copied from the input. -/
def eraseInjected (output : List Emitted) : List Operator :=
  output.filterMap originalOf

/-! ## Helper lemmas about `segs` -/

theorem dropWhile_head_not {α : Type} {p : α → Bool} :
    ∀ {l : List α} {b : α} {rest : List α}, l.dropWhile p = b :: rest → p b = false := by
  intro l
  induction l with
  | nil => intro b rest h; simp [List.dropWhile] at h
  | cons x xs ih =>
    intro b rest h
    by_cases hp : p x
    · rw [List.dropWhile_cons_of_pos hp] at h
      exact ih h
    · rw [List.dropWhile_cons_of_neg hp] at h
      cases h
      simpa using hp

theorem segs_eq_nil_drop (ops : List Operator) (hdrop : ops.dropWhile nonBoundary = []) :
    segs ops = if (ops.takeWhile nonBoundary).isEmpty then []
      else [Seg.dangling (ops.takeWhile nonBoundary)] := by
  conv_lhs => rw [segs.eq_def]
  split
  · rfl
  · rename_i b rest heq
    rw [hdrop] at heq
    simp at heq

theorem segs_eq_cons_drop (ops : List Operator) (b : Operator) (rest : List Operator)
    (hdrop : ops.dropWhile nonBoundary = b :: rest) :
    segs ops = (if (ops.takeWhile nonBoundary).isEmpty then Seg.bare b
      else Seg.closed (ops.takeWhile nonBoundary) b) :: segs rest := by
  conv_lhs => rw [segs.eq_def]
  split
  · rename_i heq
    rw [hdrop] at heq
    simp at heq
  · rename_i b' rest' heq
    rw [hdrop] at heq
    injection heq with h1 h2
    subst h1
    subst h2
    rfl

/-! ## Helper lemmas about `feed` and `runFeed` -/

theorem feed_result_ok (st : FunctionProfiling) (op : Operator) :
    (st.feed op).result = Except.ok () := by
  unfold FunctionProfiling.feed
  by_cases hb : isBoundary op <;> by_cases he : st.accumulated_ops.isEmpty <;>
    simp [hb, he]

theorem runFeed_cons (st : FunctionProfiling) (op : Operator) (rest : List Operator) :
    runFeed st (op :: rest) =
      { state := (runFeed (st.feed op).state rest).state
        emitted := (st.feed op).emitted ++ (runFeed (st.feed op).state rest).emitted
        result := (runFeed (st.feed op).state rest).result } := by
  simp only [runFeed, feed_result_ok]

theorem runFeed_append (xs ys : List Operator) :
    ∀ st : FunctionProfiling,
      runFeed st (xs ++ ys) =
        { state := (runFeed (runFeed st xs).state ys).state
          emitted := (runFeed st xs).emitted ++ (runFeed (runFeed st xs).state ys).emitted
          result := (runFeed (runFeed st xs).state ys).result } := by
  induction xs with
  | nil => intro st; simp [runFeed]
  | cons x xs ih =>
    intro st
    rw [List.cons_append, runFeed_cons, runFeed_cons, ih]
    simp [List.append_assoc]

theorem isEmpty_false_of_ne_nil {α : Type} {l : List α} (h : l ≠ []) :
    l.isEmpty = false := by
  cases l with
  | nil => exact absurd rfl h
  | cons a l => rfl

theorem register_block_snd (store : BlockStore) (ops : List OperatorSymbol) :
    (store.register_block ops).2 = blockHash ops := by
  simp only [BlockStore.register_block]
  split <;> rfl

theorem feed_body_step (st : FunctionProfiling) (op : Operator)
    (hop : isBoundary op = false) :
    st.feed op =
      { state := { st with accumulated_ops := st.accumulated_ops ++ [opSymbol op] }
        emitted := (if st.accumulated_ops.isEmpty then
            startHook st.fn_index st.block_count st.indexes.start_measurement
          else []) ++ [Emitted.original op]
        result := Except.ok () } := by
  unfold FunctionProfiling.feed
  simp [hop]

theorem feed_boundary_empty (st : FunctionProfiling) (op : Operator)
    (hb : isBoundary op = true) (hacc : st.accumulated_ops = []) :
    st.feed op = { state := st, emitted := [Emitted.original op], result := Except.ok () } := by
  unfold FunctionProfiling.feed
  simp [hb, hacc]

theorem feed_boundary_nonempty (st : FunctionProfiling) (op : Operator)
    (hb : isBoundary op = true) (hacc : st.accumulated_ops ≠ []) :
    st.feed op =
      { state := { st with
            block_store := (st.block_store.register_block st.accumulated_ops).1
            accumulated_ops := [] }
        emitted := endHook st.fn_index st.block_count (blockHash st.accumulated_ops)
            st.indexes.take_measurement ++ [Emitted.original op]
        result := Except.ok () } := by
  unfold FunctionProfiling.feed
  simp [hb, isEmpty_false_of_ne_nil hacc, register_block_snd]

theorem runFeed_body (body : List Operator) :
    ∀ st : FunctionProfiling, (∀ op ∈ body, isBoundary op = false) →
      st.accumulated_ops ≠ [] →
      runFeed st body =
        { state := { st with accumulated_ops := st.accumulated_ops ++ body.map opSymbol }
          emitted := body.map Emitted.original
          result := Except.ok () } := by
  induction body with
  | nil => intro st _ _; simp [runFeed]
  | cons op rest ih =>
    intro st hall hacc
    have hop : isBoundary op = false := hall op (by simp)
    rw [runFeed_cons, feed_body_step st op hop]
    rw [ih _ (fun o ho => hall o (by simp [ho])) (by simp)]
    simp [isEmpty_false_of_ne_nil hacc, List.append_assoc]

theorem runFeed_body_fresh (body : List Operator) (st : FunctionProfiling)
    (hall : ∀ op ∈ body, isBoundary op = false)
    (hacc : st.accumulated_ops = []) (hne : body ≠ []) :
    runFeed st body =
      { state := { st with accumulated_ops := body.map opSymbol }
        emitted := startHook st.fn_index st.block_count st.indexes.start_measurement
          ++ body.map Emitted.original
        result := Except.ok () } := by
  cases body with
  | nil => exact absurd rfl hne
  | cons op rest =>
    have hop : isBoundary op = false := hall op (by simp)
    rw [runFeed_cons, feed_body_step st op hop]
    rw [runFeed_body rest _ (fun o ho => hall o (by simp [ho])) (by simp)]
    simp [hacc, List.append_assoc]

theorem runFeed_segs_aux (n : Nat) :
    ∀ ops : List Operator, ops.length ≤ n → ∀ st : FunctionProfiling,
      st.accumulated_ops = [] →
      runFeed st ops =
        { state := { st with
              accumulated_ops := danglingSyms (segs ops)
              block_store := foldRegister st.block_store (closedSyms (segs ops)) }
          emitted := ((segs ops).map (renderSeg st.fn_index st.block_count
              st.indexes.start_measurement st.indexes.take_measurement)).flatten
          result := Except.ok () } := by
  induction n with
  | zero =>
    intro ops hlen st hacc
    obtain rfl : ops = [] := List.eq_nil_of_length_eq_zero (Nat.le_zero.mp hlen)
    obtain ⟨bs, acc, idxs, bc, fi⟩ := st
    simp only at hacc
    subst hacc
    have hsegs : segs ([] : List Operator) = [] := by
      rw [segs_eq_nil_drop [] rfl]
      simp
    rw [hsegs]
    simp [runFeed, closedSyms, danglingSyms, foldRegister]
  | succ n ih =>
    intro ops hlen st hacc
    obtain ⟨bs, acc, idxs, bc, fi⟩ := st
    simp only at hacc
    subst hacc
    cases hdrop : ops.dropWhile nonBoundary with
    | nil =>
      have hops : ops.takeWhile nonBoundary = ops := by
        conv_rhs => rw [← List.takeWhile_append_dropWhile (p := nonBoundary) (l := ops)]
        rw [hdrop, List.append_nil]
      have hall : ∀ op ∈ ops, isBoundary op = false := by
        intro op hop
        have hmem : op ∈ ops.takeWhile nonBoundary := by rw [hops]; exact hop
        have := List.mem_takeWhile_imp hmem
        simpa [nonBoundary] using this
      rw [segs_eq_nil_drop ops hdrop]
      by_cases hne : ops = []
      · subst hne
        simp [runFeed, closedSyms, danglingSyms, foldRegister]
      · have hte : (ops.takeWhile nonBoundary).isEmpty = false := by
          rw [hops]; exact isEmpty_false_of_ne_nil hne
        rw [hte, hops]
        rw [runFeed_body_fresh ops _ hall rfl hne]
        simp [closedSyms, danglingSyms, foldRegister, renderSeg]
    | cons b rest =>
      have hsplit : ops.takeWhile nonBoundary ++ b :: rest = ops := by
        conv_rhs => rw [← List.takeWhile_append_dropWhile (p := nonBoundary) (l := ops)]
        rw [hdrop]
      have hb : isBoundary b = true := by
        have := dropWhile_head_not hdrop
        simpa [nonBoundary] using this
      have hrest_len : rest.length ≤ n := by
        have := congrArg List.length hsplit
        simp at this
        omega
      rw [segs_eq_cons_drop ops b rest hdrop]
      by_cases hbe : ops.takeWhile nonBoundary = []
      · have hops : ops = b :: rest := by rw [← hsplit, hbe, List.nil_append]
        conv_lhs => rw [hops]
        rw [runFeed_cons, feed_boundary_empty _ b hb rfl]
        rw [ih rest hrest_len _ rfl]
        simp [hbe, closedSyms, danglingSyms, renderSeg]
      · have hall : ∀ op ∈ ops.takeWhile nonBoundary, isBoundary op = false := by
          intro op hop
          have := List.mem_takeWhile_imp hop
          simpa [nonBoundary] using this
        conv_lhs => rw [← hsplit]
        rw [runFeed_append]
        rw [runFeed_body_fresh _ _ hall rfl hbe]
        rw [runFeed_cons]
        rw [feed_boundary_nonempty _ b hb (by simpa using hbe)]
        rw [ih rest hrest_len _ rfl]
        simp [isEmpty_false_of_ne_nil hbe, closedSyms, danglingSyms, foldRegister,
          renderSeg, List.append_assoc]

theorem segs_join_aux (n : Nat) :
    ∀ ops : List Operator, ops.length ≤ n → ((segs ops).map segOps).flatten = ops := by
  induction n with
  | zero =>
    intro ops hlen
    obtain rfl : ops = [] := List.eq_nil_of_length_eq_zero (Nat.le_zero.mp hlen)
    rw [segs_eq_nil_drop [] rfl]
    simp
  | succ n ih =>
    intro ops hlen
    cases hdrop : ops.dropWhile nonBoundary with
    | nil =>
      have hops : ops.takeWhile nonBoundary = ops := by
        conv_rhs => rw [← List.takeWhile_append_dropWhile (p := nonBoundary) (l := ops)]
        rw [hdrop, List.append_nil]
      rw [segs_eq_nil_drop ops hdrop]
      by_cases hne : ops = []
      · subst hne; simp
      · have hte : (ops.takeWhile nonBoundary).isEmpty = false := by
          rw [hops]; exact isEmpty_false_of_ne_nil hne
        rw [hte, hops]
        simp [segOps]
    | cons b rest =>
      have hsplit : ops.takeWhile nonBoundary ++ b :: rest = ops := by
        conv_rhs => rw [← List.takeWhile_append_dropWhile (p := nonBoundary) (l := ops)]
        rw [hdrop]
      have hrest_len : rest.length ≤ n := by
        have := congrArg List.length hsplit
        simp at this
        omega
      rw [segs_eq_cons_drop ops b rest hdrop]
      by_cases hbe : ops.takeWhile nonBoundary = []
      · have hops : ops = b :: rest := by rw [← hsplit, hbe, List.nil_append]
        rw [hbe]
        simp [segOps, ih rest hrest_len, hops]
      · rw [isEmpty_false_of_ne_nil hbe]
        simp only [Bool.false_eq_true, if_false, List.map_cons, List.flatten_cons, segOps]
        rw [ih rest hrest_len]
        rw [List.append_assoc, List.singleton_append, hsplit]

theorem eraseInjected_append (a b : List Emitted) :
    eraseInjected (a ++ b) = eraseInjected a ++ eraseInjected b := by
  simp [eraseInjected]

theorem erase_map_original (l : List Operator) :
    eraseInjected (l.map Emitted.original) = l := by
  induction l with
  | nil => rfl
  | cons x xs ih =>
    simp only [List.map_cons, eraseInjected, List.filterMap_cons, originalOf] at ih ⊢
    rw [ih]

theorem filterMap_originalOf_comp (l : List Operator) :
    List.filterMap (originalOf ∘ Emitted.original) l = l := by
  induction l with
  | nil => rfl
  | cons x xs ih => simp [List.filterMap_cons, originalOf, Function.comp, ih]

theorem erase_renderSeg (fi bc si ti : Nat) (s : Seg) :
    eraseInjected (renderSeg fi bc si ti s) = segOps s := by
  cases s <;>
    simp [renderSeg, segOps, startHook, endHook, eraseInjected_append, erase_map_original,
      eraseInjected, originalOf, filterMap_originalOf_comp]

theorem erase_flatten_render (fi bc si ti : Nat) (ss : List Seg) :
    eraseInjected ((ss.map (renderSeg fi bc si ti)).flatten) = (ss.map segOps).flatten := by
  induction ss with
  | nil => rfl
  | cons s ss ih =>
    simp only [List.map_cons, List.flatten_cons, eraseInjected_append, ih,
      erase_renderSeg]

/-! ## Claim theorems: classification and module lifecycle -/

/-- C2.  The boundary classification is exhaustive and exactly as specified:
an operator is classified as a boundary instruction if and only if it is
`Loop`, `End`, `Else`, `Br`, `BrIf`, `BrTable`, `Call`, `CallIndirect` or
`Return`; every other operator falls to the wildcard arm and is treated as a
body instruction. -/
theorem boundary_classification (op : Operator) :
    isBoundary op = true ↔
      (op = .Loop ∨ op = .End ∨ op = .Else
        ∨ (∃ d, op = .Br d) ∨ (∃ d, op = .BrIf d) ∨ (∃ t, op = .BrTable t)
        ∨ (∃ f, op = .Call f) ∨ (∃ i t, op = .CallIndirect i t) ∨ op = .Return) := by
  cases op <;> simp [isBoundary]

/-- C7.  Calling `transform_module_info` on a `Profiling` whose measurement
indexes are already resolved fails fatally (the source panics) for every
second module, instead of overwriting the resolved indexes. -/
theorem transform_module_info_reuse_fatal (idx : ProfilingIndexes) (mi : ModuleInfo) :
    transform_module_info (some idx) mi =
      .error "Profiling::transform_module_info: Attempting to use a Profiling middleware from multiple modules." := rfl

/-- C10.  `generate_function_middleware` panics (modelled as an error) while
the indexes are unresolved, and under the precondition that they are resolved
it returns the freshly constructed per-function middleware. -/
theorem generate_function_middleware_unwrap :
    (∀ (bs : BlockStore) (lfi : Nat),
        generate_function_middleware bs none lfi =
          .error "called Option::unwrap() on a None value")
    ∧ (∀ (bs : BlockStore) (idx : ProfilingIndexes) (lfi : Nat),
        generate_function_middleware bs (some idx) lfi =
          .ok (FunctionProfiling.new bs idx lfi)) :=
  ⟨fun _ _ => rfl, fun _ _ _ => rfl⟩

/-- C8.  If the import scan finds no function import named
`("profiling", "start_measurement")` or none named
`("profiling", "take_measurement")`, `transform_module_info` fails fatally (an
`unwrap` panic, before any instrumentation begins); if both are found, the
recorded binding holds exactly those two function indices. -/
theorem transform_module_info_resolution (mi : ModuleInfo) :
    ((findMeasurementImport "start_measurement" mi = none
        ∨ findMeasurementImport "take_measurement" mi = none) →
      transform_module_info none mi =
        .error "called Option::unwrap() on a None value")
    ∧ (∀ i1 i2, findMeasurementImport "start_measurement" mi = some i1 →
        findMeasurementImport "take_measurement" mi = some i2 →
        transform_module_info none mi =
          .ok (some { start_measurement := i1, take_measurement := i2 })) := by
  constructor
  · intro h
    rcases h with h | h
    · simp [transform_module_info, h]
    · simp [transform_module_info, h]
      cases hs : findMeasurementImport "start_measurement" mi <;> simp [hs]
  · intro i1 i2 h1 h2
    simp [transform_module_info, h1, h2]

/-- Witness for C8 at concrete modules: a module that declares both
measurement imports resolves to their indices, and a module lacking them is
rejected. -/
theorem transform_module_info_resolution_witness :
    transform_module_info none
        ⟨[(("profiling", "start_measurement", 0), .Function 5),
          (("profiling", "take_measurement", 1), .Function 6)]⟩ =
      .ok (some { start_measurement := 5, take_measurement := 6 })
    ∧ transform_module_info none ⟨[(("env", "foo", 0), .Function 0)]⟩ =
      .error "called Option::unwrap() on a None value" := by
  constructor
  · exact (transform_module_info_resolution
      ⟨[(("profiling", "start_measurement", 0), .Function 5),
        (("profiling", "take_measurement", 1), .Function 6)]⟩).2 5 6 (by decide) (by decide)
  · exact (transform_module_info_resolution ⟨[(("env", "foo", 0), .Function 0)]⟩).1
      (Or.inl (by decide))

/-! ## Claim theorems: the rewrite of one function's stream -/

/-- C1.  Semantics preservation: feeding any instruction stream
operator-by-operator to `feed` from a fresh per-function state and erasing
from the emitted output every injected hook-call instruction (the constant
arguments and the `Call` to a measurement hook, i.e. exactly the
`state.extend` fragments, distinguished by the ghost `injected` tag) yields
the original instruction stream, in the original order. -/
theorem erase_injected_reproduces_input (store : BlockStore) (indexes : ProfilingIndexes)
    (fn_index : Nat) (ops : List Operator) :
    eraseInjected (runFeed (FunctionProfiling.new store indexes fn_index) ops).emitted = ops := by
  rw [runFeed_segs_aux ops.length ops le_rfl _ rfl]
  simp only [FunctionProfiling.new]
  rw [erase_flatten_render]
  exact segs_join_aux ops.length ops le_rfl

/-- C3.  A boundary instruction with a non-empty accumulator registers the
accumulated symbol sequence in the block store, emits the end-measurement
hook call with arguments (function id, current block-sequence number, block
content hash) before the boundary instruction, and clears the accumulator;
with an empty accumulator nothing is registered and no hook call is emitted;
in both cases the boundary instruction itself is emitted unchanged after any
hook call. -/
theorem feed_boundary_spec (st : FunctionProfiling) (op : Operator)
    (hb : isBoundary op = true) :
    (st.accumulated_ops ≠ [] →
      st.feed op =
        { state := { st with
              block_store := (st.block_store.register_block st.accumulated_ops).1
              accumulated_ops := [] }
          emitted := endHook st.fn_index st.block_count (blockHash st.accumulated_ops)
              st.indexes.take_measurement ++ [Emitted.original op]
          result := Except.ok () })
    ∧ (st.accumulated_ops = [] →
      st.feed op =
        { state := st, emitted := [Emitted.original op], result := Except.ok () }) :=
  ⟨fun hacc => feed_boundary_nonempty st op hb hacc,
   fun hacc => feed_boundary_empty st op hb hacc⟩

/-- Witness for C3 at concrete states: feeding `Return` to a state holding an
accumulated `LocalGet` symbol emits the end hook before the `Return`, and
feeding `Return` to a state with an empty accumulator emits only the
`Return`. -/
theorem feed_boundary_spec_witness :
    ((FunctionProfiling.mk BlockStore.new [OperatorSymbol.LocalGet] ⟨0, 1⟩ 0 7).feed
        Operator.Return).emitted =
      endHook 7 0 (blockHash [OperatorSymbol.LocalGet]) 1 ++ [Emitted.original Operator.Return]
    ∧ ((FunctionProfiling.mk BlockStore.new [] ⟨0, 1⟩ 0 7).feed Operator.Return).emitted =
      [Emitted.original Operator.Return] := by
  constructor
  · rw [(feed_boundary_spec (FunctionProfiling.mk BlockStore.new [OperatorSymbol.LocalGet]
      ⟨0, 1⟩ 0 7) Operator.Return rfl).1 (by decide)]
  · rw [(feed_boundary_spec (FunctionProfiling.mk BlockStore.new [] ⟨0, 1⟩ 0 7)
      Operator.Return rfl).2 rfl]

/-- C4.  A body instruction triggers a start-measurement hook call with
arguments (function id, current block-sequence number) before it exactly when
the accumulator is empty; in every case its symbol is appended to the
accumulator and the instruction itself is emitted unchanged. -/
theorem feed_body_spec (st : FunctionProfiling) (op : Operator)
    (hop : isBoundary op = false) :
    st.feed op =
      { state := { st with accumulated_ops := st.accumulated_ops ++ [opSymbol op] }
        emitted := (if st.accumulated_ops.isEmpty then
            startHook st.fn_index st.block_count st.indexes.start_measurement
          else []) ++ [Emitted.original op]
        result := Except.ok () } :=
  feed_body_step st op hop

/-- Witness for C4 at concrete states: feeding `LocalGet 0` to an empty
accumulator emits the start hook before it, and feeding it to a non-empty
accumulator emits it alone. -/
theorem feed_body_spec_witness :
    ((FunctionProfiling.mk BlockStore.new [] ⟨0, 1⟩ 0 7).feed (Operator.LocalGet 0)).emitted =
      startHook 7 0 0 ++ [Emitted.original (Operator.LocalGet 0)]
    ∧ ((FunctionProfiling.mk BlockStore.new [OperatorSymbol.Nop] ⟨0, 1⟩ 0 7).feed
        (Operator.LocalGet 0)).emitted = [Emitted.original (Operator.LocalGet 0)] := by
  constructor
  · rw [feed_body_spec (FunctionProfiling.mk BlockStore.new [] ⟨0, 1⟩ 0 7)
      (Operator.LocalGet 0) rfl]
    rfl
  · rw [feed_body_spec (FunctionProfiling.mk BlockStore.new [OperatorSymbol.Nop] ⟨0, 1⟩ 0 7)
      (Operator.LocalGet 0) rfl]
    rfl

/-- C5.  Block closure: rewriting one function's stream from a fresh state
produces exactly the segment-wise rendering, in which every closed block is
wrapped in exactly one start-hook call immediately before its first
instruction and exactly one end-hook call immediately before the boundary
instruction closing it (`renderSeg` on a `closed` segment), and both calls of
one block carry the same function id and the same block-sequence value
(`fn_index` and the fresh state's `block_count = 0`). -/
theorem block_closure_hooks (store : BlockStore) (indexes : ProfilingIndexes)
    (fn_index : Nat) (ops : List Operator) :
    (runFeed (FunctionProfiling.new store indexes fn_index) ops).emitted =
      ((segs ops).map (renderSeg fn_index 0 indexes.start_measurement
        indexes.take_measurement)).flatten := by
  rw [runFeed_segs_aux ops.length ops le_rfl _ rfl]
  rfl

/-- C6 counterexample: a stream consisting of one body instruction ends with
a non-empty pending block, yet the engine does not reject: the run returns
`Ok`, the partial block stays in the accumulator and nothing was registered
in the store. -/
theorem dangling_block_not_rejected :
    (runFeed (FunctionProfiling.new BlockStore.new ⟨0, 1⟩ 7) [Operator.LocalGet 0]).result =
      Except.ok ()
    ∧ (runFeed (FunctionProfiling.new BlockStore.new ⟨0, 1⟩ 7)
        [Operator.LocalGet 0]).state.accumulated_ops = [OperatorSymbol.LocalGet]
    ∧ (runFeed (FunctionProfiling.new BlockStore.new ⟨0, 1⟩ 7)
        [Operator.LocalGet 0]).state.block_store = BlockStore.new :=
  ⟨rfl, rfl, rfl⟩

/-- C6 (amended).  When a function's stream ends while the accumulator still
holds a non-empty pending block, the engine does not reject: every run of
`feed` calls returns `Ok`, only the closed blocks are ever registered in the
store, and the dangling partial block is silently left in the discarded
accumulator with no end-hook emitted for it. -/
theorem dangling_block_silently_dropped (store : BlockStore) (indexes : ProfilingIndexes)
    (fn_index : Nat) (ops : List Operator) :
    (runFeed (FunctionProfiling.new store indexes fn_index) ops).result = Except.ok ()
    ∧ (runFeed (FunctionProfiling.new store indexes fn_index) ops).state.accumulated_ops =
        danglingSyms (segs ops)
    ∧ (runFeed (FunctionProfiling.new store indexes fn_index) ops).state.block_store =
        foldRegister store (closedSyms (segs ops)) := by
  rw [runFeed_segs_aux ops.length ops le_rfl _ rfl]
  exact ⟨rfl, rfl, rfl⟩

/-! ## Claim theorems: the block-sequence counter -/

theorem feed_preserves_block_count (st : FunctionProfiling) (op : Operator) :
    (st.feed op).state.block_count = st.block_count := by
  unfold FunctionProfiling.feed
  by_cases hb : isBoundary op <;> by_cases he : st.accumulated_ops.isEmpty <;>
    simp [hb, he]

theorem runFeed_preserves_block_count (ops : List Operator) :
    ∀ st : FunctionProfiling, (runFeed st ops).state.block_count = st.block_count := by
  induction ops with
  | nil => intro st; rfl
  | cons op rest ih =>
    intro st
    rw [runFeed_cons]
    rw [ih, feed_preserves_block_count]

/-- C9.  The per-function block-sequence counter never changes across any
sequence of `feed` calls (so from its initial value 0 it stays 0), and every
hook fragment a step emits from a state with `block_count = 0` carries the
block-sequence constant `I32Const 0` in its second position — both the
start-hook and the end-hook place the block-sequence argument at index 1. -/
theorem block_count_never_advances :
    (∀ (st : FunctionProfiling) (ops : List Operator),
        (runFeed st ops).state.block_count = st.block_count)
    ∧ (∀ (st : FunctionProfiling) (op : Operator), st.block_count = 0 →
        (st.feed op).emitted = [Emitted.original op]
        ∨ ∃ pre, (st.feed op).emitted = pre ++ [Emitted.original op]
            ∧ pre.get? 1 = some (Emitted.injected (Operator.I32Const 0))) := by
  constructor
  · intro st ops
    exact runFeed_preserves_block_count ops st
  · intro st op hbc
    by_cases hb : isBoundary op
    · by_cases he : st.accumulated_ops = []
      · left
        rw [feed_boundary_empty st op hb he]
      · right
        refine ⟨endHook st.fn_index st.block_count (blockHash st.accumulated_ops)
          st.indexes.take_measurement, ?_, ?_⟩
        · rw [feed_boundary_nonempty st op hb he]
        · simp [endHook, hbc, toI32]
    · by_cases he : st.accumulated_ops = []
      · right
        refine ⟨startHook st.fn_index st.block_count st.indexes.start_measurement, ?_, ?_⟩
        · rw [feed_body_step st op (by simpa using hb)]
          simp [he]
        · simp [startHook, hbc, toI32]
      · left
        rw [feed_body_step st op (by simpa using hb)]
        simp [isEmpty_false_of_ne_nil he]

/-- Witness for C9 at a concrete state with `block_count = 0`: the start hook
emitted for a body instruction carries block-sequence constant 0. -/
theorem block_count_never_advances_witness :
    ((FunctionProfiling.mk BlockStore.new [] ⟨0, 1⟩ 0 7).feed (Operator.LocalGet 0)).emitted =
        [Emitted.original (Operator.LocalGet 0)]
    ∨ ∃ pre,
        ((FunctionProfiling.mk BlockStore.new [] ⟨0, 1⟩ 0 7).feed
            (Operator.LocalGet 0)).emitted = pre ++ [Emitted.original (Operator.LocalGet 0)]
        ∧ pre.get? 1 = some (Emitted.injected (Operator.I32Const 0)) :=
  block_count_never_advances.2 (FunctionProfiling.mk BlockStore.new [] ⟨0, 1⟩ 0 7)
    (Operator.LocalGet 0) rfl

end CosmwasmProfiler
